import Mathlib

set_option maxHeartbeats 1000000

/-! Shallow embedding of `src/nucleus/io/fasta.py`: the in-memory reference
reader (`InMemoryRefReader`, called `InMemoryReferenceStore` in the design
document) and the `iterate` operation of the file-backed `RefFastaReader`.

Python strings are modelled as `List Char`, Python integers as `Int`, Python
dicts as insertion-ordered association lists (keys are unique for every store
built by the constructor), and a raised `ValueError` /
`NotImplementedError` as an `Except` error.  The distinct raise sites of the
source are mapped to the error taxonomy used by the design document
(`InvalidRegionError`, `UnknownContigError`, `OutOfBoundsError`,
`InvalidArgumentError`, `UnsupportedOperationError`). -/

/-- A genomic region `{reference_name, start, end}`, half-open and 0-based
(`nucleus.protos` range record, as consumed by `fasta.py`). -/
structure Region where
  reference_name : String
  start : Int
  «end» : Int
deriving DecidableEq, Repr

/-- The `reference_pb2.ContigInfo` record as constructed by `InMemoryRefReader.__init__`:
`name`, `n_bases` and `pos_in_fasta` (zero-based position in the input). -/
structure ContigInfo where
  name : String
  n_bases : Int
  pos_in_fasta : Nat
deriving DecidableEq, Repr

/-- The `_InMemoryChromosome` namedtuple of `fasta.py`: a stored window
`[start, end)` together with the bases held for that window. -/
structure InMemoryChromosome where
  start : Int
  «end» : Int
  bases : List Char
deriving DecidableEq, Repr

/-- Error taxonomy of the design document; each constructor corresponds to a
distinct raise site of `fasta.py` (all of which raise `ValueError` or
`NotImplementedError` with distinct messages). -/
inductive FastaError where
  | invalidRegion
  | unknownContig
  | outOfBounds
  | invalidArgument
  | unsupportedOperation
deriving DecidableEq, Repr

/-- The state of an `InMemoryRefReader`: the dict `self._chroms` (an
insertion-ordered association list) and the header's contig list
`self.header.contigs`. -/
structure InMemoryRefReader where
  chroms : List (String × InMemoryChromosome)
  contigs : List ContigInfo
deriving DecidableEq, Repr

/-- The loop body of `InMemoryRefReader.__init__`: processes the remaining
`(contig_name, start, bases)` tuples, `i` being the `enumerate` index of the
first remaining tuple; checks, in source order, `start < 0`, duplicate
`contig_name`, empty `bases`; on success inserts the chromosome and appends
`ContigInfo(name, n_bases=end, pos_in_fasta=i)`. -/
def buildAux (seen : List (String × InMemoryChromosome)) (contigs : List ContigInfo)
    (i : Nat) : List (String × Int × List Char) → Except FastaError InMemoryRefReader
  | [] => .ok ⟨seen, contigs⟩
  | (contig_name, start, bases) :: rest =>
    if start < 0 then
      .error .invalidArgument
    else if seen.any (fun p => p.1 == contig_name) then
      .error .invalidArgument
    else if bases = [] then
      .error .invalidArgument
    else
      buildAux (seen ++ [(contig_name, ⟨start, start + bases.length, bases⟩)])
        (contigs ++ [⟨contig_name, start + bases.length, i⟩]) (i + 1) rest

/-- Embeds `InMemoryRefReader.__init__(chromosomes)`: builds the store, or fails with
`InvalidArgumentError` (a Python `ValueError`). -/
def InMemoryRefReader.build (chromosomes : List (String × Int × List Char)) :
    Except FastaError InMemoryRefReader :=
  buildAux [] [] 0 chromosomes

/-- Embeds `InMemoryRefReader._lookup_chromosome(region)`: malformed-region check
first, then dict membership, then the bounds check against the stored window. -/
def InMemoryRefReader.lookup_chromosome (self : InMemoryRefReader) (region : Region) :
    Except FastaError (Int × Int × List Char) :=
  if region.start > region.«end» then
    .error .invalidRegion
  else
    match self.chroms.find? (fun p => p.1 == region.reference_name) with
    | none => .error .unknownContig
    | some (_, c) =>
      if region.start < c.start ∨ region.«end» > c.«end» then
        .error .outOfBounds
      else
        .ok (c.start, c.«end», c.bases)

/-- Python slice-index normalisation: a negative index counts from the end of
the sequence, and the result is clamped into `[0, len]`. -/
def pySliceIndex (len : Nat) (i : Int) : Nat :=
  let i' := if i < 0 then i + len else i
  if i' < 0 then 0 else min i'.toNat len

/-- Python string slice `l[i:j]` (step 1): the elements at positions
`pySliceIndex len i ≤ k < pySliceIndex len j`. -/
def pySlice (l : List Char) (i j : Int) : List Char :=
  (l.take (pySliceIndex l.length j)).drop (pySliceIndex l.length i)

/-- Embeds `InMemoryRefReader.query(region)`: looks up the chromosome and returns
`bases[region.start - start : region.end - start]`. -/
def InMemoryRefReader.query (self : InMemoryRefReader) (region : Region) :
    Except FastaError (List Char) :=
  match self.lookup_chromosome region with
  | .error e => .error e
  | .ok (start, _, bases) =>
    .ok (pySlice bases (region.start - start) (region.«end» - start))

/-- Embeds `InMemoryRefReader.is_valid(region)`: runs `_lookup_chromosome` and maps
success to `true` and a raised `ValueError` to `false`. -/
def InMemoryRefReader.is_valid (self : InMemoryRefReader) (region : Region) : Bool :=
  match self.lookup_chromosome region with
  | .ok _ => true
  | .error _ => false

/-- Embeds `InMemoryRefReader.contig(contig_name)`: linear scan of
`self.header.contigs`, returning the first contig whose name matches, else
`UnknownContigError` (a Python `ValueError`). -/
def InMemoryRefReader.contig (self : InMemoryRefReader) (contig_name : String) :
    Except FastaError ContigInfo :=
  match self.contigs.find? (fun c => c.name == contig_name) with
  | some c => .ok c
  | none => .error .unknownContig

/-- Embeds `InMemoryRefReader.iterate()`: always raises (`NotImplementedError`,
`UnsupportedOperationError` in the design document's taxonomy). -/
def InMemoryRefReader.iterate (self : InMemoryRefReader) :
    Except FastaError (List Region) :=
  .error .unsupportedOperation

/-- Embeds `RefFastaReader.iterate()`: always raises, independently of the reader's
(opaque, file-backed) state, which is therefore an arbitrary type here. -/
def RefFastaReader.iterate {α : Type} (reader : α) :
    Except FastaError (List Region) :=
  .error .unsupportedOperation

/-- State-passing form of `query`: the Python method reads `self._chroms` and
never assigns to any attribute of `self`, so the resulting state is rebuilt
from the (unmodified) fields. -/
def InMemoryRefReader.queryS (self : InMemoryRefReader) (region : Region) :
    Except FastaError (List Char) × InMemoryRefReader :=
  (self.query region, ⟨self.chroms, self.contigs⟩)

/-- State-passing form of `is_valid`; no attribute of `self` is assigned. -/
def InMemoryRefReader.is_validS (self : InMemoryRefReader) (region : Region) :
    Bool × InMemoryRefReader :=
  (self.is_valid region, ⟨self.chroms, self.contigs⟩)

/-- State-passing form of `contig`; no attribute of `self` is assigned. -/
def InMemoryRefReader.contigS (self : InMemoryRefReader) (contig_name : String) :
    Except FastaError ContigInfo × InMemoryRefReader :=
  (self.contig contig_name, ⟨self.chroms, self.contigs⟩)

instance {ε α : Type} [DecidableEq ε] [DecidableEq α] : DecidableEq (Except ε α) :=
  fun a b =>
    match a, b with
    | .ok x, .ok y => decidable_of_iff (x = y) (by simp)
    | .error x, .error y => decidable_of_iff (x = y) (by simp)
    | .ok _, .error _ => isFalse (by simp)
    | .error _, .ok _ => isFalse (by simp)

/-- The chromosome map a successful build produces, entry by entry. -/
def mkChroms (l : List (String × Int × List Char)) : List (String × InMemoryChromosome) :=
  l.map (fun t => (t.1, ⟨t.2.1, t.2.1 + t.2.2.length, t.2.2⟩))

/-- The contig list a successful build produces, the first entry getting
`pos_in_fasta = i`. -/
def mkContigs (i : Nat) : List (String × Int × List Char) → List ContigInfo
  | [] => []
  | t :: rest => ⟨t.1, t.2.1 + t.2.2.length, i⟩ :: mkContigs (i + 1) rest

theorem buildAux_ok (l : List (String × Int × List Char)) :
    ∀ (seen : List (String × InMemoryChromosome)) (contigs : List ContigInfo)
      (i : Nat) (s : InMemoryRefReader), buildAux seen contigs i l = .ok s →
      s.chroms = seen ++ mkChroms l ∧ s.contigs = contigs ++ mkContigs i l := by
  induction l with
  | nil =>
    intro seen contigs i s h
    simp only [buildAux, Except.ok.injEq] at h
    subst h
    simp [mkChroms, mkContigs]
  | cons t rest ih =>
    intro seen contigs i s h
    obtain ⟨contig_name, start, bases⟩ := t
    simp only [buildAux] at h
    split at h
    · exact absurd h (by simp)
    · split at h
      · exact absurd h (by simp)
      · split at h
        · exact absurd h (by simp)
        · have := ih _ _ _ _ h
          simpa [mkChroms, mkContigs, List.append_assoc] using this

theorem build_ok_spec (l : List (String × Int × List Char)) (s : InMemoryRefReader)
    (h : InMemoryRefReader.build l = .ok s) :
    s.chroms = mkChroms l ∧ s.contigs = mkContigs 0 l := by
  simpa using buildAux_ok l [] [] 0 s h

/-- Every chromosome stored by a successful build satisfies
`end = start + len(bases)`. -/
theorem build_chrom_wf (l : List (String × Int × List Char)) (s : InMemoryRefReader)
    (nm : String) (c : InMemoryChromosome)
    (h : InMemoryRefReader.build l = .ok s) (hmem : (nm, c) ∈ s.chroms) :
    c.«end» = c.start + (c.bases.length : Int) := by
  rw [(build_ok_spec l s h).1] at hmem
  simp only [mkChroms, List.mem_map] at hmem
  obtain ⟨t, _, ht⟩ := hmem
  obtain ⟨h1, h2⟩ := Prod.mk.injEq .. ▸ ht
  subst h2
  rfl

theorem pySlice_eq (l : List Char) (i j : Int) (h0 : 0 ≤ i) (hij : i ≤ j)
    (hj : j ≤ (l.length : Int)) :
    pySlice l i j = (l.drop i.toNat).take (j - i).toNat := by
  have h0j : 0 ≤ j := le_trans h0 hij
  have hi' : pySliceIndex l.length i = i.toNat := by
    simp only [pySliceIndex]
    rw [if_neg (by omega), if_neg (by omega)]
    omega
  have hj' : pySliceIndex l.length j = j.toNat := by
    simp only [pySliceIndex]
    rw [if_neg (by omega), if_neg (by omega)]
    omega
  simp only [pySlice, hi', hj', List.drop_take]
  congr 1
  omega

theorem drop_take_append (l : List Char) (a b c : Nat) (hab : a ≤ b) (hbc : b ≤ c) :
    (l.drop a).take (b - a) ++ (l.drop b).take (c - b) = (l.drop a).take (c - a) := by
  have h : c - a = (b - a) + (c - b) := by omega
  rw [h, List.take_add, List.drop_drop]
  have h2 : a + (b - a) = b := by omega
  rw [h2]

/-- The common success path: on a region whose window sits inside the stored
window, `query` returns exactly the matching slice of the stored bases. -/
theorem query_ok_of_bounds (s : InMemoryRefReader) (r : Region) (nm : String)
    (c : InMemoryChromosome)
    (hfind : s.chroms.find? (fun p => p.1 == r.reference_name) = some (nm, c))
    (hwf : c.«end» = c.start + (c.bases.length : Int))
    (h1 : c.start ≤ r.start) (h2 : r.start ≤ r.«end») (h3 : r.«end» ≤ c.«end») :
    s.query r = .ok ((c.bases.drop (r.start - c.start).toNat).take
      (r.«end» - r.start).toNat) := by
  have hlook : s.lookup_chromosome r = .ok (c.start, c.«end», c.bases) := by
    simp only [InMemoryRefReader.lookup_chromosome, hfind]
    rw [if_neg (by omega), if_neg (by omega)]
  simp only [InMemoryRefReader.query, hlook]
  rw [pySlice_eq _ _ _ (by omega) (by omega) (by omega)]
  congr 2
  omega

theorem query_error_of_lookup (s : InMemoryRefReader) (r : Region) (e : FastaError)
    (h : s.lookup_chromosome r = .error e) : s.query r = .error e := by
  simp only [InMemoryRefReader.query, h]

theorem lookup_invalid (s : InMemoryRefReader) (r : Region) (h : r.start > r.«end») :
    s.lookup_chromosome r = .error .invalidRegion := by
  simp only [InMemoryRefReader.lookup_chromosome]
  rw [if_pos h]

theorem lookup_unknown (s : InMemoryRefReader) (r : Region) (h1 : ¬ r.start > r.«end»)
    (h2 : s.chroms.find? (fun p => p.1 == r.reference_name) = none) :
    s.lookup_chromosome r = .error .unknownContig := by
  simp only [InMemoryRefReader.lookup_chromosome, h2]
  rw [if_neg h1]

theorem lookup_oob (s : InMemoryRefReader) (r : Region) (nm : String)
    (c : InMemoryChromosome) (h1 : ¬ r.start > r.«end»)
    (h2 : s.chroms.find? (fun p => p.1 == r.reference_name) = some (nm, c))
    (h3 : r.start < c.start ∨ r.«end» > c.«end») :
    s.lookup_chromosome r = .error .outOfBounds := by
  simp only [InMemoryRefReader.lookup_chromosome, h2]
  rw [if_neg h1, if_pos h3]

/-- C1: for every store built by `InMemoryRefReader.build` (the spec's
`InMemoryReferenceStore.build`) and every region `r` with `r.start ≤ r.end`
whose window lies inside the stored `[start, end)` window of its contig,
`query r` succeeds and returns exactly `r.end - r.start` bases. -/
theorem C1_query_length (chromosomes : List (String × Int × List Char))
    (s : InMemoryRefReader) (r : Region) (nm : String) (c : InMemoryChromosome)
    (hb : InMemoryRefReader.build chromosomes = .ok s)
    (h2 : r.start ≤ r.«end»)
    (hfind : s.chroms.find? (fun p => p.1 == r.reference_name) = some (nm, c))
    (h1 : c.start ≤ r.start) (h3 : r.«end» ≤ c.«end») :
    ∃ b, s.query r = .ok b ∧ (b.length : Int) = r.«end» - r.start := by
  have hwf := build_chrom_wf chromosomes s nm c hb (List.mem_of_find?_eq_some hfind)
  refine ⟨_, query_ok_of_bounds s r nm c hfind hwf h1 h2 h3, ?_⟩
  simp only [List.length_take, List.length_drop]
  omega

/-- C1 witness: the store holding `("1", 10, "ACGT")` answers the region
`("1", 11, 12)` with exactly one base. -/
theorem C1_witness :
    ∃ b, (InMemoryRefReader.mk [("1", ⟨10, 14, ['A','C','G','T']⟩)]
        [⟨"1", 14, 0⟩]).query ⟨"1", 11, 12⟩ = .ok b ∧
      (b.length : Int) = (12 : Int) - 11 :=
  C1_query_length [("1", 10, ['A','C','G','T'])] _ ⟨"1", 11, 12⟩ "1"
    ⟨10, 14, ['A','C','G','T']⟩ (by decide) (by decide) (by decide) (by decide)
    (by decide)

/-- C2: on every built store, `query` fails with `InvalidRegionError` when
`start > end`, with `UnknownContigError` when the reference name is not
stored, with `OutOfBoundsError` when the region's window leaves the stored
`[start, end)` window, and succeeds otherwise; in particular the
`("chrZ", 0, 1)` and `("1", 5, 3)` examples. -/
theorem C2_query_errors (chromosomes : List (String × Int × List Char))
    (s : InMemoryRefReader) (hb : InMemoryRefReader.build chromosomes = .ok s)
    (r : Region) :
    (r.start > r.«end» → s.query r = .error .invalidRegion) ∧
    (r.start ≤ r.«end» →
      s.chroms.find? (fun p => p.1 == r.reference_name) = none →
      s.query r = .error .unknownContig) ∧
    (∀ nm c, r.start ≤ r.«end» →
      s.chroms.find? (fun p => p.1 == r.reference_name) = some (nm, c) →
      r.start < c.start ∨ r.«end» > c.«end» →
      s.query r = .error .outOfBounds) ∧
    (∀ nm c, r.start ≤ r.«end» →
      s.chroms.find? (fun p => p.1 == r.reference_name) = some (nm, c) →
      c.start ≤ r.start → r.«end» ≤ c.«end» → ∃ b, s.query r = .ok b) ∧
    (s.chroms.find? (fun p => p.1 == "chrZ") = none →
      s.query ⟨"chrZ", 0, 1⟩ = .error .unknownContig) ∧
    s.query ⟨"1", 5, 3⟩ = .error .invalidRegion := by
  refine ⟨?_, ?_, ?_, ?_, ?_, ?_⟩
  · intro h
    exact query_error_of_lookup s r _ (lookup_invalid s r h)
  · intro h1 h2
    exact query_error_of_lookup s r _ (lookup_unknown s r (by omega) h2)
  · intro nm c h1 h2 h3
    exact query_error_of_lookup s r _ (lookup_oob s r nm c (by omega) h2 h3)
  · intro nm c h1 h2 h3 h4
    have hwf := build_chrom_wf chromosomes s nm c hb (List.mem_of_find?_eq_some h2)
    exact ⟨_, query_ok_of_bounds s r nm c h2 hwf h3 h1 h4⟩
  · intro h
    exact query_error_of_lookup s _ _ (lookup_unknown s ⟨"chrZ", 0, 1⟩ (by decide) h)
  · exact query_error_of_lookup s _ _ (lookup_invalid s ⟨"1", 5, 3⟩ (by decide))

/-- C2 witness: the two concrete example regions on the store holding
`("1", 10, "ACGT")`. -/
theorem C2_witness :
    (InMemoryRefReader.mk [("1", ⟨10, 14, ['A','C','G','T']⟩)]
        [⟨"1", 14, 0⟩]).query ⟨"chrZ", 0, 1⟩ = .error .unknownContig ∧
    (InMemoryRefReader.mk [("1", ⟨10, 14, ['A','C','G','T']⟩)]
        [⟨"1", 14, 0⟩]).query ⟨"1", 5, 3⟩ = .error .invalidRegion :=
  ⟨(C2_query_errors [("1", 10, ['A','C','G','T'])] _ (by decide)
      ⟨"chrZ", 0, 1⟩).2.2.2.2.1 (by decide),
   (C2_query_errors [("1", 10, ['A','C','G','T'])] _ (by decide)
      ⟨"1", 5, 3⟩).2.2.2.2.2⟩

/-- C3: on every in-memory store, `is_valid r` is `true` exactly when
`query r` succeeds; `is_valid` is a total boolean function, so it never
raises. -/
theorem C3_is_valid_iff_query (s : InMemoryRefReader) (r : Region) :
    s.is_valid r = true ↔ ∃ b, s.query r = .ok b := by
  cases h : s.lookup_chromosome r with
  | error e => simp [InMemoryRefReader.is_valid, InMemoryRefReader.query, h]
  | ok t =>
    obtain ⟨st, en, bs⟩ := t
    simp [InMemoryRefReader.is_valid, InMemoryRefReader.query, h]

/-- C4: the store built from the single entry `("1", 10, "ACGT")` answers
`("1", 11, 12)` with `"C"`, rejects `("1", 9, 10)` with `OutOfBoundsError`,
and reports contig length (`n_bases`) 14 for `"1"`. -/
theorem C4_concrete_window :
    InMemoryRefReader.build [("1", 10, ['A','C','G','T'])] =
      .ok ⟨[("1", ⟨10, 14, ['A','C','G','T']⟩)], [⟨"1", 14, 0⟩]⟩ ∧
    (InMemoryRefReader.mk [("1", ⟨10, 14, ['A','C','G','T']⟩)]
        [⟨"1", 14, 0⟩]).query ⟨"1", 11, 12⟩ = .ok ['C'] ∧
    (InMemoryRefReader.mk [("1", ⟨10, 14, ['A','C','G','T']⟩)]
        [⟨"1", 14, 0⟩]).query ⟨"1", 9, 10⟩ = .error .outOfBounds ∧
    (InMemoryRefReader.mk [("1", ⟨10, 14, ['A','C','G','T']⟩)]
        [⟨"1", 14, 0⟩]).contig "1" = .ok ⟨"1", 14, 0⟩ := by
  decide

/-- C7: `iterate` always fails with `UnsupportedOperationError`, on every
in-memory store and on every file-backed reader state. -/
theorem C7_iterate_unsupported :
    (∀ s : InMemoryRefReader, s.iterate = .error .unsupportedOperation) ∧
    (∀ (α : Type) (reader : α),
      RefFastaReader.iterate reader = .error .unsupportedOperation) :=
  ⟨fun _ => rfl, fun _ _ => rfl⟩

/-- C8: `query`, `is_valid` and `contig` leave the store's state unchanged,
and two consecutive `query r` calls return identical bases. -/
theorem C8_no_mutation (s : InMemoryRefReader) (r : Region) (contig_name : String) :
    (s.queryS r).2 = s ∧ (s.is_validS r).2 = s ∧ (s.contigS contig_name).2 = s ∧
      ((s.queryS r).2.queryS r).1 = (s.queryS r).1 := by
  cases s
  exact ⟨rfl, rfl, rfl, rfl⟩

/-- C9: the malformed-region check runs before the unknown-contig check: a
region with `start > end` on an unknown reference name yields
`InvalidRegionError`, not `UnknownContigError`, on every store. -/
theorem C9_malformed_first (s : InMemoryRefReader) (r : Region)
    (h1 : r.start > r.«end»)
    (h2 : r.reference_name ∉ s.chroms.map Prod.fst) :
    s.query r = .error .invalidRegion :=
  query_error_of_lookup s r _ (lookup_invalid s r h1)

/-- C9 witness: an unknown contig with `start > end` still gives the
malformed-region error. -/
theorem C9_witness :
    (InMemoryRefReader.mk [("1", ⟨10, 14, ['A','C','G','T']⟩)]
        [⟨"1", 14, 0⟩]).query ⟨"chrZ", 5, 3⟩ = .error .invalidRegion :=
  C9_malformed_first _ ⟨"chrZ", 5, 3⟩ (by decide) (by decide)

theorem buildAux_error_val (l : List (String × Int × List Char)) :
    ∀ (seen : List (String × InMemoryChromosome)) (contigs : List ContigInfo)
      (i : Nat) (e : FastaError), buildAux seen contigs i l = .error e →
      e = .invalidArgument := by
  induction l with
  | nil =>
    intro seen contigs i e h
    simp [buildAux] at h
  | cons t rest ih =>
    intro seen contigs i e h
    obtain ⟨nm, st, bs⟩ := t
    simp only [buildAux] at h
    split at h
    · injection h with h
      exact h.symm
    · split at h
      · injection h with h
        exact h.symm
      · split at h
        · injection h with h
          exact h.symm
        · exact ih _ _ _ _ h

theorem buildAux_error_iff (l : List (String × Int × List Char)) :
    ∀ (seen : List (String × InMemoryChromosome)) (contigs : List ContigInfo)
      (i : Nat),
    buildAux seen contigs i l = .error .invalidArgument ↔
      ((∃ t ∈ l, t.2.1 < 0 ∨ t.2.2 = []) ∨ ¬ (l.map Prod.fst).Nodup ∨
        ∃ nm ∈ l.map Prod.fst, nm ∈ seen.map Prod.fst) := by
  induction l with
  | nil =>
    intro seen contigs i
    simp [buildAux]
  | cons t rest ih =>
    intro seen contigs i
    obtain ⟨nm, st, bs⟩ := t
    simp only [buildAux]
    by_cases h1 : st < 0
    · rw [if_pos h1]
      exact iff_of_true rfl (Or.inl ⟨(nm, st, bs), by simp, Or.inl h1⟩)
    · rw [if_neg h1]
      by_cases h2 : seen.any (fun p => p.1 == nm) = true
      · rw [if_pos h2]
        have hnm : nm ∈ seen.map Prod.fst := by
          simp only [List.any_eq_true] at h2
          obtain ⟨p, hp, he⟩ := h2
          simp only [beq_iff_eq] at he
          exact List.mem_map.mpr ⟨p, hp, he⟩
        exact iff_of_true rfl (Or.inr (Or.inr ⟨nm, by simp, hnm⟩))
      · rw [if_neg h2]
        by_cases h3 : bs = []
        · rw [if_pos h3]
          exact iff_of_true rfl (Or.inl ⟨(nm, st, bs), by simp, Or.inr h3⟩)
        · rw [if_neg h3]
          rw [ih]
          have hnmseen : nm ∉ seen.map Prod.fst := by
            rw [Bool.not_eq_true, List.any_eq_false] at h2
            intro hin
            obtain ⟨p, hp, he⟩ := List.mem_map.mp hin
            exact h2 p hp (by simp [he])
          have e1 : (∃ t ∈ (nm, st, bs) :: rest, t.2.1 < 0 ∨ t.2.2 = []) ↔
              (∃ t ∈ rest, t.2.1 < 0 ∨ t.2.2 = []) := by
            simp only [List.mem_cons]
            constructor
            · rintro ⟨t, ht | ht, hbad⟩
              · subst ht
                rcases hbad with h | h
                · exact absurd h h1
                · exact absurd h h3
              · exact ⟨t, ht, hbad⟩
            · rintro ⟨t, ht, hbad⟩
              exact ⟨t, Or.inr ht, hbad⟩
          have e2 : ¬ (((nm, st, bs) :: rest).map Prod.fst).Nodup ↔
              (nm ∈ rest.map Prod.fst ∨ ¬ (rest.map Prod.fst).Nodup) := by
            simp only [List.map_cons, List.nodup_cons]
            tauto
          have e3 : (∃ m ∈ rest.map Prod.fst,
                m ∈ (seen ++ [(nm, (⟨st, st + bs.length, bs⟩ : InMemoryChromosome))]).map
                  Prod.fst) ↔
              ((∃ m ∈ rest.map Prod.fst, m ∈ seen.map Prod.fst) ∨
                nm ∈ rest.map Prod.fst) := by
            simp only [List.map_append, List.mem_append, List.map_cons, List.map_nil,
              List.mem_singleton]
            constructor
            · rintro ⟨m, hm, hin | hin⟩
              · exact Or.inl ⟨m, hm, hin⟩
              · subst hin
                exact Or.inr hm
            · rintro (⟨m, hm, hin⟩ | hnmr)
              · exact ⟨m, hm, Or.inl hin⟩
              · exact ⟨nm, hnmr, Or.inr rfl⟩
          have e4 : (∃ m ∈ ((nm, st, bs) :: rest).map Prod.fst,
                m ∈ seen.map Prod.fst) ↔
              (∃ m ∈ rest.map Prod.fst, m ∈ seen.map Prod.fst) := by
            simp only [List.map_cons, List.mem_cons]
            constructor
            · rintro ⟨m, rfl | hm, hs⟩
              · exact absurd hs hnmseen
              · exact ⟨m, hm, hs⟩
            · rintro ⟨m, hm, hs⟩
              exact ⟨m, Or.inr hm, hs⟩
          constructor
          · rintro (hA | hN | hS)
            · exact Or.inl (e1.mpr hA)
            · exact Or.inr (Or.inl (e2.mpr (Or.inr hN)))
            · rcases e3.mp hS with hS' | hM
              · exact Or.inr (Or.inr (e4.mpr hS'))
              · exact Or.inr (Or.inl (e2.mpr (Or.inl hM)))
          · rintro (hA | hN | hS)
            · exact Or.inl (e1.mp hA)
            · rcases e2.mp hN with hM | hN'
              · exact Or.inr (Or.inr (e3.mpr (Or.inr hM)))
              · exact Or.inr (Or.inl hN')
            · exact Or.inr (Or.inr (e3.mpr (Or.inl (e4.mp hS))))

theorem build_error_iff (l : List (String × Int × List Char)) :
    InMemoryRefReader.build l = .error .invalidArgument ↔
      ((∃ t ∈ l, t.2.1 < 0 ∨ t.2.2 = []) ∨ ¬ (l.map Prod.fst).Nodup) := by
  rw [InMemoryRefReader.build, buildAux_error_iff]
  simp

/-- C5: `build` fails, always with `InvalidArgumentError`, exactly when some
entry has a negative start, some entry has empty bases, or some contig name
repeats in the input; in particular the duplicate-name example fails. -/
theorem C5_build_invalid_iff :
    (∀ (chromosomes : List (String × Int × List Char)) (e : FastaError),
      InMemoryRefReader.build chromosomes = .error e → e = .invalidArgument) ∧
    (∀ chromosomes : List (String × Int × List Char),
      InMemoryRefReader.build chromosomes = .error .invalidArgument ↔
        ((∃ t ∈ chromosomes, t.2.1 < 0) ∨ (∃ t ∈ chromosomes, t.2.2 = []) ∨
          ¬ (chromosomes.map Prod.fst).Nodup)) ∧
    InMemoryRefReader.build [("1", 0, ['A']), ("1", 0, ['C'])] =
      .error .invalidArgument := by
  refine ⟨fun l e h => buildAux_error_val l [] [] 0 e h, fun l => ?_, by decide⟩
  rw [build_error_iff]
  constructor
  · rintro (⟨t, ht, h | h⟩ | h)
    · exact Or.inl ⟨t, ht, h⟩
    · exact Or.inr (Or.inl ⟨t, ht, h⟩)
    · exact Or.inr (Or.inr h)
  · rintro (⟨t, ht, h⟩ | ⟨t, ht, h⟩ | h)
    · exact Or.inl ⟨t, ht, Or.inl h⟩
    · exact Or.inl ⟨t, ht, Or.inr h⟩
    · exact Or.inr h

/-- C5 witness: the duplicate-name example, obtained from the
characterisation. -/
theorem C5_witness :
    InMemoryRefReader.build [("1", 0, ['A']), ("1", 0, ['C'])] =
      .error .invalidArgument :=
  (C5_build_invalid_iff.2.1 [("1", 0, ['A']), ("1", 0, ['C'])]).mpr (by decide)

theorem mkContigs_length (l : List (String × Int × List Char)) :
    ∀ i : Nat, (mkContigs i l).length = l.length := by
  induction l with
  | nil => intro i; rfl
  | cons t rest ih => intro i; simp [mkContigs, ih]

theorem mkContigs_get (l : List (String × Int × List Char)) :
    ∀ (i n : Nat) (hn : n < l.length) (hn' : n < (mkContigs i l).length),
      (mkContigs i l).get ⟨n, hn'⟩ =
        ⟨(l.get ⟨n, hn⟩).1,
          (l.get ⟨n, hn⟩).2.1 + ((l.get ⟨n, hn⟩).2.2.length : Int), i + n⟩ := by
  induction l with
  | nil =>
    intro i n hn
    exact absurd hn (by simp)
  | cons t rest ih =>
    intro i n hn hn'
    cases n with
    | zero => rfl
    | succ m =>
      have hm : m < rest.length := by simpa using hn
      have hm' : m < (mkContigs (i + 1) rest).length := by
        rw [mkContigs_length]; exact hm
      have e1 : (mkContigs i (t :: rest)).get ⟨m + 1, hn'⟩ =
          (mkContigs (i + 1) rest).get ⟨m, hm'⟩ := rfl
      have e2 : (t :: rest).get ⟨m + 1, hn⟩ = rest.get ⟨m, hm⟩ := rfl
      rw [e1, e2, ih (i + 1) m hm hm']
      have e3 : i + 1 + m = i + (m + 1) := by omega
      rw [e3]

theorem mkContigs_map_name (l : List (String × Int × List Char)) :
    ∀ i : Nat, (mkContigs i l).map ContigInfo.name = l.map Prod.fst := by
  induction l with
  | nil => intro i; rfl
  | cons t rest ih => intro i; simp [mkContigs, ih]

theorem build_ok_nodup (l : List (String × Int × List Char)) (s : InMemoryRefReader)
    (h : InMemoryRefReader.build l = .ok s) : (l.map Prod.fst).Nodup := by
  by_contra hnd
  have : InMemoryRefReader.build l = .error .invalidArgument :=
    (build_error_iff l).mpr (Or.inr hnd)
  rw [h] at this
  exact absurd this (by simp)

theorem find?_name_get (cs : List ContigInfo) :
    ∀ (n : Nat) (hn : n < cs.length), (cs.map ContigInfo.name).Nodup →
      cs.find? (fun c => c.name == (cs.get ⟨n, hn⟩).name) = some (cs.get ⟨n, hn⟩) := by
  induction cs with
  | nil =>
    intro n hn
    exact absurd hn (by simp)
  | cons c rest ih =>
    intro n hn hnd
    rw [List.map_cons, List.nodup_cons] at hnd
    cases n with
    | zero =>
      rw [List.find?_cons_of_pos _ (by simp [List.get])]
      rfl
    | succ m =>
      have hm : m < rest.length := by simpa using hn
      have hget : ((c :: rest).get ⟨m + 1, hn⟩) = rest.get ⟨m, hm⟩ := rfl
      rw [hget, List.find?_cons_of_neg, ih m hm hnd.2]
      simp only [beq_iff_eq]
      intro he
      exact hnd.1 (he ▸ List.mem_map.mpr ⟨rest.get ⟨m, hm⟩, List.get_mem rest m hm, rfl⟩)

theorem contig_of_find? (s : InMemoryRefReader) (contig_name : String)
    (ci : ContigInfo)
    (h : s.contigs.find? (fun c => c.name == contig_name) = some ci) :
    s.contig contig_name = .ok ci := by
  simp only [InMemoryRefReader.contig, h]

theorem contig_unknown_of_not_mem (s : InMemoryRefReader) (contig_name : String)
    (h : contig_name ∉ s.contigs.map ContigInfo.name) :
    s.contig contig_name = .error .unknownContig := by
  have hnone : s.contigs.find? (fun c => c.name == contig_name) = none := by
    rw [List.find?_eq_none]
    intro c hc
    simp only [beq_iff_eq]
    intro he
    exact h (List.mem_map.mpr ⟨c, hc, he⟩)
  simp only [InMemoryRefReader.contig, hnone]

/-- C6: a successful build turns the entry `(name, start, bases)` at input
index `i` into `ContigInfo` with that name, `n_bases = start + len(bases)`
and `pos_in_fasta = i`; `contig name` returns exactly that record, and
`contig` fails with `UnknownContigError` on any name not in the input. -/
theorem C6_contig_metadata (chromosomes : List (String × Int × List Char))
    (s : InMemoryRefReader) (hb : InMemoryRefReader.build chromosomes = .ok s) :
    s.contigs.length = chromosomes.length ∧
    (∀ (n : Nat) (hn : n < chromosomes.length) (h : n < s.contigs.length),
      s.contigs.get ⟨n, h⟩ =
        ⟨(chromosomes.get ⟨n, hn⟩).1,
          (chromosomes.get ⟨n, hn⟩).2.1 +
            ((chromosomes.get ⟨n, hn⟩).2.2.length : Int), n⟩) ∧
    (∀ (n : Nat) (hn : n < chromosomes.length) (h : n < s.contigs.length),
      s.contig (chromosomes.get ⟨n, hn⟩).1 = .ok (s.contigs.get ⟨n, h⟩)) ∧
    (∀ nm, nm ∉ chromosomes.map Prod.fst →
      s.contig nm = .error .unknownContig) := by
  have hnd : (chromosomes.map Prod.fst).Nodup := build_ok_nodup chromosomes s hb
  obtain ⟨ch, co⟩ := s
  have hspec := build_ok_spec chromosomes ⟨ch, co⟩ hb
  simp only [InMemoryRefReader.mk.injEq] at hspec
  obtain ⟨hch, hco⟩ := hspec
  subst hch
  subst hco
  have hnames : (mkContigs 0 chromosomes).map ContigInfo.name =
      chromosomes.map Prod.fst := mkContigs_map_name chromosomes 0
  have hget : ∀ (n : Nat) (hn : n < chromosomes.length)
      (h : n < (mkContigs 0 chromosomes).length),
      (mkContigs 0 chromosomes).get ⟨n, h⟩ =
        ⟨(chromosomes.get ⟨n, hn⟩).1,
          (chromosomes.get ⟨n, hn⟩).2.1 +
            ((chromosomes.get ⟨n, hn⟩).2.2.length : Int), n⟩ := by
    intro n hn h
    have := mkContigs_get chromosomes 0 n hn h
    rwa [Nat.zero_add] at this
  refine ⟨mkContigs_length chromosomes 0, hget, ?_, ?_⟩
  · intro n hn h
    have hname : (chromosomes.get ⟨n, hn⟩).1 =
        ((mkContigs 0 chromosomes).get ⟨n, h⟩).name := by
      rw [hget n hn h]
    rw [hname]
    exact contig_of_find? _ _ _ (find?_name_get (mkContigs 0 chromosomes) n h
      (by rw [hnames]; exact hnd))
  · intro nm hnm
    exact contig_unknown_of_not_mem _ nm (by rwa [hnames])

/-- C6 witness: the single-entry store's contig record. -/
theorem C6_witness :
    (InMemoryRefReader.mk [("1", ⟨10, 14, ['A','C','G','T']⟩)]
        [⟨"1", 14, 0⟩]).contig "1" = .ok ⟨"1", 14, 0⟩ :=
  (C6_contig_metadata [("1", 10, ['A','C','G','T'])]
      (InMemoryRefReader.mk [("1", ⟨10, 14, ['A','C','G','T']⟩)] [⟨"1", 14, 0⟩])
      (by decide)).2.2.1 0 (by decide) (by decide)

/-- C10: on a built store, `query` returns the substring `B[a-s : b-s]` of the
stored bases for `s ≤ a ≤ b ≤ e`; adjacent queries concatenate, and a
degenerate region with `a = b` (including `a = e`) succeeds with the empty
sequence. -/
theorem C10_slice_algebra (chromosomes : List (String × Int × List Char))
    (s : InMemoryRefReader) (nm : String) (c : InMemoryChromosome)
    (hb : InMemoryRefReader.build chromosomes = .ok s)
    (hfind : s.chroms.find? (fun p => p.1 == nm) = some (nm, c)) :
    (∀ a b : Int, c.start ≤ a → a ≤ b → b ≤ c.«end» →
      s.query ⟨nm, a, b⟩ =
        .ok ((c.bases.drop (a - c.start).toNat).take (b - a).toNat)) ∧
    (∀ a b d : Int, c.start ≤ a → a ≤ b → b ≤ d → d ≤ c.«end» →
      ∃ x y z, s.query ⟨nm, a, b⟩ = .ok x ∧ s.query ⟨nm, b, d⟩ = .ok y ∧
        s.query ⟨nm, a, d⟩ = .ok z ∧ x ++ y = z) ∧
    (∀ a : Int, c.start ≤ a → a ≤ c.«end» → s.query ⟨nm, a, a⟩ = .ok []) := by
  have hwf := build_chrom_wf chromosomes s nm c hb (List.mem_of_find?_eq_some hfind)
  have hq : ∀ a b : Int, c.start ≤ a → a ≤ b → b ≤ c.«end» →
      s.query ⟨nm, a, b⟩ =
        .ok ((c.bases.drop (a - c.start).toNat).take (b - a).toNat) := by
    intro a b h1 h2 h3
    exact query_ok_of_bounds s ⟨nm, a, b⟩ nm c hfind hwf h1 h2 h3
  refine ⟨hq, ?_, ?_⟩
  · intro a b d h1 h2 h3 h4
    refine ⟨_, _, _, hq a b h1 h2 (le_trans h3 h4),
      hq b d (le_trans h1 h2) h3 h4, hq a d h1 (le_trans h2 h3) h4, ?_⟩
    have hA : (a - c.start).toNat ≤ (b - c.start).toNat := by omega
    have hB : (b - c.start).toNat ≤ (d - c.start).toNat := by omega
    have e1 : (b - a).toNat = (b - c.start).toNat - (a - c.start).toNat := by omega
    have e2 : (d - b).toNat = (d - c.start).toNat - (b - c.start).toNat := by omega
    have e3 : (d - a).toNat = (d - c.start).toNat - (a - c.start).toNat := by omega
    rw [e1, e2, e3]
    exact drop_take_append c.bases _ _ _ hA hB
  · intro a h1 h2
    rw [hq a a h1 le_rfl h2]
    simp

/-- C10 witness: the one-base slice of the `("1", 10, "ACGT")` store. -/
theorem C10_witness :
    (InMemoryRefReader.mk [("1", ⟨10, 14, ['A','C','G','T']⟩)]
        [⟨"1", 14, 0⟩]).query ⟨"1", 11, 12⟩ =
      .ok (((['A','C','G','T'] : List Char).drop ((11 : Int) - 10).toNat).take
        (((12 : Int) - 11)).toNat) :=
  (C10_slice_algebra [("1", 10, ['A','C','G','T'])]
      (InMemoryRefReader.mk [("1", ⟨10, 14, ['A','C','G','T']⟩)] [⟨"1", 14, 0⟩])
      "1" ⟨10, 14, ['A','C','G','T']⟩ (by decide) (by decide)).1 11 12
    (by decide) (by decide) (by decide)
